import Mathlib

/-!
# Verification of the `labdave/Cancer` FASTQ demultiplexer

Shallow embedding of the demultiplexing pipeline in `src/fastq/demux.py`
(classes `DemultiplexWriter`, `DemultiplexWorker`, `DemultiplexInlineWorker`,
`DemultiplexDualIndexWorker`, `DemultiplexInline.save_statistics`,
`DemultiplexDualIndex.determine_adapters`) together with the barcode
canonicalisation of `src/fastq.py` (`IlluminaFASTQ.convert_barcode`).

Conventions of the embedding:
* Python strings are `List Char`; counter keys (Python dict keys built with
  `"%s_1" % adapter` etc.) are Lean `String`s.
* Python `int` is `Int` / `Nat`, Python `float` parameters (`error_rate`) are `Rat`;
  `math.floor` is `Int.floor`.
* The external alignment library `parasail` is an oracle: an arbitrary function
  producing an `AlignResult` (the fields `matches`, `score`, `end_ref` that the
  source reads).  The external `editdistance.eval` is the textbook Levenshtein
  distance `lev` (the spec defines `edit` as Levenshtein distance).
* Fallible Python code (raising `ValueError`, `TypeError`, `KeyError`) returns
  `Except`.
-/

set_option autoImplicit false

deriving instance DecidableEq for Except

namespace Cancer

/-! ## Python primitives used by the source -/

/-- Python `round(n / 2)` for a natural `n`: `n / 2` is exact in binary floating
point, and Python `round` uses round-half-to-even (banker's rounding). -/
def pyRoundHalf (n : Nat) : Nat :=
  if n % 2 = 0 then n / 2
  else if (n / 2) % 2 = 0 then n / 2 else n / 2 + 1

/-- Auxiliary accumulator loop for `pySplit`. -/
def pySplitAux (sep : Char) : List Char → List Char → List (List Char)
  | [], acc => [acc.reverse]
  | c :: rest, acc =>
      if c = sep then acc.reverse :: pySplitAux sep rest []
      else pySplitAux sep rest (c :: acc)

/-- Python `s.split(sep)` for a one-character separator: splits on every
occurrence, keeping empty pieces (always returns a non-empty list). -/
def pySplit (sep : Char) (l : List Char) : List (List Char) :=
  pySplitAux sep l []

/-- Characters Python `str.strip()` removes. -/
def isPySpace (c : Char) : Bool :=
  c = ' ' ∨ c = '\t' ∨ c = '\n' ∨ c = '\r' ∨ c = Char.ofNat 11 ∨ c = Char.ofNat 12

/-- Python `s.strip()`. -/
def pyStrip (l : List Char) : List Char :=
  ((l.dropWhile isPySpace).reverse.dropWhile isPySpace).reverse

/-- Python `s.split(":")[-1]`: the substring after the final colon
(the whole string when there is no colon). -/
def afterLastColon (l : List Char) : List Char :=
  (pySplit ':' l).getLastD []

/-! ## Barcode strings and canonicalisation (`src/fastq.py`) -/

/-- The nucleotide alphabet `{A, C, G, T, N}` of the data model. -/
def nucChars : List Char := ['A', 'C', 'G', 'T', 'N']

/-- Is `c` a nucleotide character? -/
def isNuc (c : Char) : Bool := c ∈ nucChars

/-- Modelled from the spec: `Sequence` (module `src/fastq/sequence.py` is not
under `src/`); base pairing `A↔T`, `C↔G`, `N↔N` used by `reverse_complements`.
Characters outside the pairing are left unchanged. -/
def complementBase (c : Char) : Char :=
  if c = 'A' then 'T'
  else if c = 'T' then 'A'
  else if c = 'C' then 'G'
  else if c = 'G' then 'C'
  else c

/-- Modelled from the spec: `Sequence(s).reverse_complements` (class `Sequence`
is not under `src/`): the reverse complement of `s` with pairing `A↔T`, `C↔G`,
`N↔N`. -/
def reverseComplements (l : List Char) : List Char :=
  (l.map complementBase).reverse

/-- `re.match(IlluminaFASTQ.dual_index_pattern, b)` where the pattern is
`[ACGTN]{8}\+[ACGTN]{8}`: `re.match` anchors at the start only, so this tests
whether a prefix of `b` has the dual-index shape. -/
def dualIndexMatch (b : List Char) : Bool :=
  (b.take 8).length = 8 && (b.take 8).all isNuc &&
    (b.drop 8).take 1 = ['+'] &&
    ((b.drop 9).take 8).length = 8 && ((b.drop 9).take 8).all isNuc

/-- `IlluminaFASTQ.convert_barcode` (`src/fastq.py`, lines 82–88):
split on `+`, keep `i7`, reverse-complement `i5`, rejoin with `+`.
(The source indexes `idx[0]`/`idx[1]`; callers only invoke it after
`dual_index_pattern` matched, so both pieces exist.) -/
def convert_barcode (b : List Char) : List Char :=
  let idx := pySplit '+' b
  idx.headD [] ++ '+' :: reverseComplements (idx.getD 1 [])

/-! ## Levenshtein distance (external library `editdistance`) -/

/-- Inner structural recursion for `lev`: given `h = lev xs` and the new head
character `x`, computes `lev (x :: xs)` by recursion on the second string.
`base` is `lev (x :: xs) [] = |x :: xs|`. -/
def levRow (h : List Char → Nat) (x : Char) (base : Nat) : List Char → Nat
  | [] => base
  | y :: ys =>
      min (h ys + (if x = y then 0 else 1))
        (min (levRow h x base ys + 1) (h (y :: ys) + 1))

/-- `editdistance.eval`: the Levenshtein distance (the spec's `edit`):
minimum number of substitutions, insertions and deletions.  Structured as two
nested structural recursions so that it evaluates in the kernel; the usual
recurrence is recovered in `lev_nil_left`, `lev_nil_right` and
`lev_cons_cons`. -/
def lev : List Char → List Char → Nat
  | [], ys => ys.length
  | x :: xs, ys => levRow (lev xs) x (xs.length + 1) ys

/-! ## Counter maps (`FASTQWorker.counts`) -/

/-- A worker's counter dictionary: insertion-ordered association list from
string keys to counts, modelling the single Python `dict` that holds `total`,
`matched`, `unmatched` and the per-adapter keys. -/
abbrev CMap := List (String × Nat)

/-- Modelled from the spec: `FASTQWorker.add_count` (module
`src/fastq/processor.py` is not under `src/`); per the spec's counter-set data
model it increments `counts[key]` by `n` (creating the key at 0). -/
def addCount (m : CMap) (k : String) (n : Nat) : CMap :=
  match m with
  | [] => [(k, n)]
  | (k', v) :: rest => if k' = k then (k', v + n) :: rest else (k', v) :: addCount rest k n

/-- `counts.get(k, 0)`. -/
def cGet (m : CMap) (k : String) : Nat :=
  match m with
  | [] => 0
  | (k', v) :: rest => if k' = k then v else cGet rest k

/-- Python `k in counts`. -/
def cMem (m : CMap) (k : String) : Bool :=
  match m with
  | [] => false
  | (k', _) :: rest => k' = k || cMem rest k

/-! ## Reads and read pairs -/

/-- A dnaio `Sequence`: header name (without `@`), nucleotide sequence and
quality string. -/
structure Read where
  name : List Char
  sequence : List Char
  qualities : List Char
deriving DecidableEq

/-- Modelled from the spec: the header identity used by `ReadPair` validation
(module `src/fastq/fastq_pair.py` is not under `src/`): the segment of the
header before the first whitespace, ignoring a terminal `/1` vs `/2`. -/
def headId (name : List Char) : List Char :=
  let w := name.takeWhile (fun c => !isPySpace c)
  if w.reverse.take 2 = ['1', '/'] ∨ w.reverse.take 2 = ['2', '/'] then
    w.take (w.length - 2)
  else w

/-- Modelled from the spec: `ReadPair` validation — a pair is valid iff R1 and
R2 share the same header up to the mate designator. -/
def pairValid (r1 r2 : Read) : Bool :=
  headId r1.name = headId r2.name

/-- Modelled from the spec: `ReadPair.barcode` — the substring following the
final `:` of R1's header. -/
def pairBarcode (r1 : Read) : List Char :=
  afterLastColon r1.name

/-- The characters the spec's data model allows in a barcode string: a single
nucleotide word, or a dual-index word additionally containing `+`. -/
def barcodeChars : List Char := ['A', 'C', 'G', 'T', 'N', '+']

/-- The spec's data-model constraint on barcode strings: an adapter is a
non-empty word over `{A, C, G, T, N, +}`.  (Several counter theorems assume
it: it keeps the formatted dict keys `A`, `A_1`, `A_2` distinct from the
reserved keys `total`, `matched`, `unmatched` in the single counter dict.) -/
def goodAdapter (a : List Char) : Prop :=
  a ≠ [] ∧ ∀ c ∈ a, c ∈ barcodeChars

instance (a : List Char) : Decidable (goodAdapter a) := by
  unfold goodAdapter; infer_instance

/-! ## Worker construction (`DemultiplexWorker.__init__`, lines 110–136) -/

/-- Errors raised by `DemultiplexWorker.__init__`. -/
inductive ConstructError
  /-- `min([])` raises `ValueError` when the adapter list is empty (line 124). -/
  | emptyAdapters
  /-- `if not self.penalty: raise ValueError(...)` (lines 130–131). -/
  | zeroPenalty
deriving DecidableEq

/-- `self.error_rate = error_rate if error_rate else self.DEFAULT_ERROR_RATE`
(line 127): `None`, `0` and `0.0` are all falsy and fall back to the class
default. -/
def effectiveErrorRate (dflt : ℚ) (errorRate : Option ℚ) : ℚ :=
  match errorRate with
  | none => dflt
  | some r => if r = 0 then dflt else r

/-- `int(score) if str(score).isdigit() else 1` (line 128): for an integer
argument, `str(score).isdigit()` holds iff the integer is non-negative
(a leading `-` is not a digit). -/
def effectiveScore (score : ℤ) : ℕ :=
  if 0 ≤ score then score.toNat else 1

/-- `int(penalty) if str(penalty).isdigit() else 10` (line 129): negative
integers render with a `-` sign, fail `isdigit`, and are silently replaced by
the default `10`. -/
def effectivePenalty (penalty : ℤ) : ℕ :=
  if 0 ≤ penalty then penalty.toNat else 10

/-- `min([len(adapter) for adapter in adapters])` (for a non-empty list;
`minAdapterLen [] = 0` is never used because `min([])` raises). -/
def minAdapterLen : List (List Char) → ℕ
  | [] => 0
  | a :: rest => rest.foldl (fun m x => Nat.min m x.length) a.length

/-- The state a successfully constructed `DemultiplexWorker` carries. -/
structure WorkerParams where
  adapters : List (List Char)
  errorRate : ℚ
  score : ℕ
  penalty : ℕ
  minMatchLength : ℕ
deriving DecidableEq

/-- `DemultiplexWorker.__init__(barcode_dict, error_rate, score, penalty)`:
`adapters = list(barcode_dict.keys())`,
`min_match_length = round(min([len(adapter) / 2 for adapter in adapters]))`
(evaluated before the defaults, so an empty adapter list raises first), then
the falsy-default conversions, then `if not self.penalty: raise ValueError`.
`dflt` is the class attribute `DEFAULT_ERROR_RATE` (`0.2` for the inline
worker, `0.1` for the dual-index worker). -/
def mkWorker (dflt : ℚ) (adapters : List (List Char)) (errorRate : Option ℚ)
    (score penalty : ℤ) : Except ConstructError WorkerParams :=
  match adapters with
  | [] => .error .emptyAdapters
  | a :: rest =>
      if effectivePenalty penalty = 0 then .error .zeroPenalty
      else
        .ok { adapters := a :: rest
              errorRate := effectiveErrorRate dflt errorRate
              score := effectiveScore score
              penalty := effectivePenalty penalty
              minMatchLength := pyRoundHalf (minAdapterLen (a :: rest)) }

/-! ## Alignment oracle and inline trimming (`DemultiplexInlineWorker`) -/

/-- The fields of a `parasail.sg_de_stats` result that the source reads.
`matchCount` models `result.matches` (the word `matches` is reserved in Lean). -/
structure AlignResult where
  matchCount : ℕ
  score : ℤ
  end_ref : ℕ
deriving DecidableEq

/-- An alignment oracle standing for
`parasail.sg_de_stats(adapter, probe, penalty, penalty, score_matrix)`:
the external C library is not part of this repository, so the theorems
quantify over every oracle. -/
abbrev Align := List Char → List Char → AlignResult

/-- `read.sequence[:20]`: the probe is the first 20 bases of the read. -/
def probe (r : Read) : List Char := r.sequence.take 20

/-- `distance = (self.score * result.matches - result.score) / self.penalty`
(line 262), a Python float division modelled exactly over `ℚ`. -/
def impliedDistance (w : WorkerParams) (r : AlignResult) : ℚ :=
  ((w.score : ℚ) * (r.matchCount : ℚ) - (r.score : ℚ)) / (w.penalty : ℚ)

/-- `max_distance = math.floor(len(adapter) * self.error_rate)` (line 263);
also the per-adapter `self.max_error[adapter]` of the dual-index worker
(line 303).  `Rat.floor` is used because it evaluates in the kernel; it agrees
with the mathematical floor `⌊·⌋` (see `maxDistance_eq_floor`). -/
def maxDistance (w : WorkerParams) (a : List Char) : ℤ :=
  ((a.length : ℚ) * w.errorRate).floor

/-- First acceptance condition (line 260, negated `continue`):
the alignment's matched-base count strictly exceeds `min_match_length`. -/
abbrev enoughMatches (w : WorkerParams) (r : AlignResult) : Prop :=
  w.minMatchLength < r.matchCount

/-- Second acceptance condition (line 264): implied distance at most
`max_distance`. -/
abbrev withinError (w : WorkerParams) (a : List Char) (r : AlignResult) : Prop :=
  impliedDistance w r ≤ (maxDistance w a : ℚ)

/-- The inner adapter loop of `DemultiplexInlineWorker.trim_adapters`
(lines 256–268) for one read: try adapters in insertion order; skip when
`result.matches <= min_match_length`; accept and truncate at `end_ref + 1`
when the implied distance is within `max_distance`; otherwise continue.
Returns the (possibly trimmed) read together with the matched adapter
(`[]` standing for Python's `""` when nothing matched). -/
def trimLoop (align : Align) (w : WorkerParams) : List (List Char) → Read → Read × List Char
  | [], read => (read, [])
  | a :: rest, read =>
      let r := align a (probe read)
      if r.matchCount ≤ w.minMatchLength then trimLoop align w rest read
      else if withinError w a r then
        ({ read with
            sequence := read.sequence.drop (r.end_ref + 1)
            qualities := read.qualities.drop (r.end_ref + 1) }, a)
      else trimLoop align w rest read

/-- Spec-side restatement of the acceptance test, for the refinement theorem:
an adapter is accepted against a probe iff `matches > min_match_length` and
the implied distance is at most `floor(|adapter| * error_rate)`. -/
def acceptsAdapter (align : Align) (w : WorkerParams) (p : List Char) (a : List Char) : Bool :=
  decide (enoughMatches w (align a p) ∧ withinError w a (align a p))

/-- Spec-side restatement of per-read trimming, for the refinement theorem:
the matched adapter is the first accepted one in insertion order, and on
acceptance sequence and quality are truncated on the left to
`[end_ref + 1 :]`. -/
def trimSpecRead (align : Align) (w : WorkerParams) (read : Read) : Read × List Char :=
  match w.adapters.find? (acceptsAdapter align w (probe read)) with
  | none => (read, [])
  | some a =>
      ({ read with
          sequence := read.sequence.drop ((align a (probe read)).end_ref + 1)
          qualities := read.qualities.drop ((align a (probe read)).end_ref + 1) }, a)

/-! ## Per-pair processing -/

/-- `DemultiplexWriter.BARCODE_NOT_MATCHED`. -/
def NO_MATCH : String := "NO_MATCH"

/-- The 3-tuple `(BARCODE, READ1, READ2)` returned by `process_read_pair`. -/
structure PairResult where
  barcode : String
  read1 : Read
  read2 : Read
deriving DecidableEq

/-- A fatal per-pair error (invalid `ReadPair`). -/
inductive WorkerError
  | invalidPair
deriving DecidableEq

/-- `adapter = adapter1 if len(adapter1) > len(adapter2) else adapter2`
(line 286): the longer adapter has higher priority, ties go to `adapter2`. -/
def longerAdapter (a1 a2 : List Char) : List Char :=
  if a2.length < a1.length then a1 else a2

/-- The counter updates of `DemultiplexInlineWorker.process_read_pair`
(lines 280–295) given the two matched adapters (`[]` = no match):
`A_1`/`A_2` per matched side, then either the longer adapter's key and
`matched`, or `unmatched`. -/
def inlineCounts (c : CMap) (a1 a2 : List Char) : CMap :=
  let c1 := if a1 ≠ [] then addCount c (String.mk a1 ++ "_1") 1 else c
  let c2 := if a2 ≠ [] then addCount c1 (String.mk a2 ++ "_2") 1 else c1
  if longerAdapter a1 a2 ≠ [] then
    addCount (addCount c2 (String.mk (longerAdapter a1 a2)) 1) "matched" 1
  else
    addCount c2 "unmatched" 1

/-- The barcode bucket of `DemultiplexInlineWorker.process_read_pair`:
the longer matched adapter, or `NO_MATCH` when neither read matched. -/
def inlineBucket (a1 a2 : List Char) : String :=
  if longerAdapter a1 a2 ≠ [] then String.mk (longerAdapter a1 a2) else NO_MATCH

/-- `DemultiplexInlineWorker.process_read_pair` (lines 272–297): validate the
pair, trim both reads against all adapters, count `A_1`/`A_2` per matched
side, pick the longer adapter (`adapter1 if len(adapter1) > len(adapter2)
else adapter2`), count `matched`/adapter or `unmatched`, and return the
(trimmed) reads under the chosen bucket. -/
def processInlinePair (align : Align) (w : WorkerParams) (c : CMap) (r1 r2 : Read) :
    Except WorkerError (CMap × PairResult) :=
  if pairValid r1 r2 then
    let t1 := trimLoop align w w.adapters r1
    let t2 := trimLoop align w w.adapters r2
    .ok (inlineCounts c t1.2 t2.2, ⟨inlineBucket t1.2 t2.2, t1.1, t2.1⟩)
  else .error .invalidPair

/-- `DemultiplexDualIndexWorker.match_adapters` (lines 305–318): the first
adapter (insertion order) whose Levenshtein distance to the barcode is
strictly below `max_error[adapter] = floor(len(adapter) * error_rate)`. -/
def match_adapters (w : WorkerParams) (barcode : List Char) : Option (List Char) :=
  w.adapters.find? (fun a => decide ((lev barcode a : ℤ) < maxDistance w a))

/-- The barcode a dual-index pair is matched under: the header barcode,
canonicalised when it matches the dual-index pattern
(`process_read_pair`, lines 322–324). -/
def canonicalHeaderBarcode (r1 : Read) : List Char :=
  let b := pairBarcode r1
  if dualIndexMatch b then convert_barcode b else b

/-- `DemultiplexDualIndexWorker.process_read_pair` (lines 320–332). -/
def processDualPair (w : WorkerParams) (c : CMap) (r1 r2 : Read) :
    Except WorkerError (CMap × PairResult) :=
  if pairValid r1 r2 then
    match match_adapters w (canonicalHeaderBarcode r1) with
    | none => .ok (addCount c "unmatched" 1, ⟨NO_MATCH, r1, r2⟩)
    | some a => .ok (addCount (addCount c "matched" 1) (String.mk a) 1, ⟨String.mk a, r1, r2⟩)
  else .error .invalidPair

/-! ## The worker loop (`DemultiplexWorker.start`, lines 150–185) -/

/-- Process one batch of read pairs (the `for read_pair in reads` loop);
a step function abstracts over the inline / dual-index `process_read_pair`. -/
def processBatch (step : CMap → Read × Read → Except WorkerError (CMap × PairResult)) :
    CMap → List (Read × Read) → Except WorkerError CMap
  | c, [] => .ok c
  | c, pr :: rest =>
      match step c pr with
      | .error e => .error e
      | .ok (c', _) => processBatch step c' rest

/-- The worker loop over all batches delivered before the poison value:
after each batch, `self.add_count('total', len(reads))` (line 181); on the
poison, the final counters are returned. -/
def runWorker (step : CMap → Read × Read → Except WorkerError (CMap × PairResult)) :
    CMap → List (List (Read × Read)) → Except WorkerError CMap
  | c, [] => .ok c
  | c, batch :: more =>
      match processBatch step c batch with
      | .error e => .error e
      | .ok c' => runWorker step (addCount c' "total" batch.length) more

/-- A completed inline-worker run over the given batches. -/
def runInline (align : Align) (w : WorkerParams) (c : CMap)
    (batches : List (List (Read × Read))) : Except WorkerError CMap :=
  runWorker (fun c pr => processInlinePair align w c pr.1 pr.2) c batches

/-- A completed dual-index-worker run over the given batches. -/
def runDual (w : WorkerParams) (c : CMap)
    (batches : List (List (Read × Read))) : Except WorkerError CMap :=
  runWorker (fun c pr => processDualPair w c pr.1 pr.2) c batches

/-! ## Output writer (`DemultiplexWriter`, lines 16–102) -/

/-- A Python-level exception escaping `DemultiplexWriter.open`. -/
inductive PyError
  /-- `prefix + ".R1.fastq.gz"` with `prefix = None` raises `TypeError`. -/
  | typeError
deriving DecidableEq

/-- Python dict assignment `d[k] = v` on the barcode → file-object mapping. -/
def setAssign : List (String × Option String) → String → Option String →
    List (String × Option String)
  | [], k, v => [(k, v)]
  | (k', v') :: rest, k, v =>
      if k' = k then (k, v) :: rest else (k', v') :: setAssign rest k v

/-- The writer's state: `prefix_dict` (filename prefix → opened file object)
and the barcode → file-object dictionary (the `dict` superclass).  A file
object is identified by the filename prefix it was opened with
(`paired_end_filenames` appends `.R1.fastq.gz` / `.R2.fastq.gz`). -/
structure WriterState where
  prefixDict : List (String × String)
  assign : List (String × Option String)
deriving DecidableEq

/-- One iteration of the loop in `DemultiplexWriter.open` (lines 74–83) for
entry `(barcode, filePrefix)`.  Note the source has no `continue` after
`if not prefix: self[barcode] = None`, so execution falls through: a `None`
prefix reaches `paired_end_filenames(None)` and raises `TypeError`, and an
empty-string prefix opens the files `".R1.fastq.gz"` / `".R2.fastq.gz"` and
overwrites the `None` assignment. -/
def writerOpenStep (st : WriterState) (barcode : String) (filePre : Option String) :
    Except PyError WriterState :=
  let a1 := if filePre = none ∨ filePre = some "" then setAssign st.assign barcode none
            else st.assign
  match filePre with
  | none => .error .typeError
  | some s =>
      match st.prefixDict.find? (fun q => q.1 = s) with
      | some q => .ok ⟨st.prefixDict, setAssign a1 barcode (some q.2)⟩
      | none => .ok ⟨st.prefixDict ++ [(s, s)], setAssign a1 barcode (some s)⟩

/-- The loop of `DemultiplexWriter.open` over `barcode_dict.items()`. -/
def writerOpenLoop : WriterState → List (String × Option String) → Except PyError WriterState
  | st, [] => .ok st
  | st, (b, p) :: rest =>
      match writerOpenStep st b p with
      | .error e => .error e
      | .ok st' => writerOpenLoop st' rest

/-- `DemultiplexWriter.open` starting from the empty state. -/
def writerOpen (barcodeDict : List (String × Option String)) : Except PyError WriterState :=
  writerOpenLoop ⟨[], []⟩ barcodeDict

/-- `self.get(barcode)` as used by `DemultiplexWriter.write` (line 93):
`none` when the barcode is missing or its file object is `None`; `write`
returns without writing exactly when this is `none` (`if not fp: return`). -/
def writerHandle (st : WriterState) (barcode : String) : Option String :=
  match st.assign.find? (fun q => q.1 = barcode) with
  | none => none
  | some q => q.2

/-! ## Statistics CSV (`DemultiplexInline.save_statistics`, lines 417–451) -/

/-- One row of the statistics CSV. -/
inductive StatsRow
  /-- The column-header row (written before any counter checks). -/
  | headerRow (tag : String)
  /-- One data row per adapter:
  `[sample, barcode, r1/total, r2/total, matched/total, total, matched, unmatched]`. -/
  | dataRow (sample barcode : String) (r1Pct r2Pct totalPct : ℚ)
      (total matchedReads unmatchedReads : ℕ)
deriving DecidableEq

/-- How `save_statistics` terminates. -/
inductive StatsOutcome
  /-- `raise KeyError("Total read count is missing.")`. -/
  | missingTotal
  /-- `raise KeyError("Unmatched read count is missing.")`. -/
  | missingUnmatched
  /-- `return None` (the `if not total` early return). -/
  | noOutput
  /-- Normal completion returning the CSV path. -/
  | saved
deriving DecidableEq

/-- `DemultiplexInline.save_statistics`: returns the rows written to the CSV
file on disk (the file is created and the header row written *before* any
counter check) together with the outcome.  `adapters` is the process's ordered
adapter list (`String.mk` of each worker adapter); `tag` is the `header`
argument after its falsy default. -/
def save_statistics (counts : CMap) (adapters : List String) (sample tag : String) :
    List StatsRow × StatsOutcome :=
  let hdr : List StatsRow := [.headerRow tag]
  if cMem counts "total" = false then (hdr, .missingTotal)
  else
    let total := cGet counts "total"
    if total = 0 then (hdr, .noOutput)
    else if cMem counts "unmatched" = false then (hdr, .missingUnmatched)
    else
      let unmatched := cGet counts "unmatched"
      (hdr ++ adapters.map (fun a =>
        .dataRow sample a
          ((cGet counts (a ++ "_1") : ℚ) / (total : ℚ))
          ((cGet counts (a ++ "_2") : ℚ) / (total : ℚ))
          ((cGet counts a : ℚ) / (total : ℚ))
          total (cGet counts a) unmatched), .saved)

/-! ## Adapter inference (`DemultiplexDualIndex.determine_adapters`, lines 458–475) -/

/-- Barcode-count dictionary keyed by barcode strings. -/
abbrev BMap := List (List Char × Nat)

/-- `c = barcode_counts.get(barcode, 0); c += 1; barcode_counts[barcode] = c`. -/
def bumpB : BMap → List Char → BMap
  | [], k => [(k, 1)]
  | (k', v) :: rest, k =>
      if k' = k then (k', v + 1) :: rest else (k', v) :: bumpB rest k

/-- Total number of records contributing to the barcode counts. -/
def sumB : BMap → Nat
  | [] => 0
  | (_, v) :: rest => v + sumB rest

/-- `barcode = read1.name.strip().split(":")[-1]`, canonicalised when it
matches the dual-index pattern (lines 464–466). -/
def headerBarcodeOf (name : List Char) : List Char :=
  let b := afterLastColon (pyStrip name)
  if dualIndexMatch b then convert_barcode b else b

/-- The counting loop of `determine_adapters` (lines 461–473) over the R1
header names: count the record's barcode, *then* increment the counter and
stop once `counter > 3000`.  The `> 3000` test runs after the increment, so the
3001st record is counted before the loop breaks. -/
def determineLoop : List (List Char) → Nat → BMap → BMap
  | [], _, m => m
  | name :: rest, counter, m =>
      let m' := bumpB m (headerBarcodeOf name)
      let c' := counter + 1
      if 3000 < c' then m' else determineLoop rest c' m'

/-- The barcode counts accumulated by `determine_adapters` from the R1 headers
(from which `BarcodeStatistics(...).major_barcodes()` then selects). -/
def determineCounts (names : List (List Char)) : BMap :=
  determineLoop names 0 []

/-! ## Spec-side outcome predicates -/

/-- The spec's round-trip outcome for a dual-index run: the run completed and
its counters satisfy `matched = total` and `unmatched = 0`. -/
def dualRoundTripOutcome (r : Except WorkerError CMap) : Prop :=
  match r with
  | .error _ => False
  | .ok c => cGet c "matched" = cGet c "total" ∧ cGet c "unmatched" = 0

/-! ## Concrete instances used by witnesses and counterexamples -/

/-- An arbitrary alignment oracle (C1 witness). -/
def alignW1 : Align := fun a _ => ⟨a.length, (a.length : ℤ), a.length - 1⟩

/-- A concrete read (C1 witness). -/
def readW1 : Read := ⟨"r1".data, "AAAACGTCGT".data, "IIIIIIIIII".data⟩

/-- The worker built by `mkWorker (1/5) [AAAA] none 1 10` (C1 witness). -/
def workerW1 : WorkerParams := ⟨[['A', 'A', 'A', 'A']], 1/5, 1, 10, 2⟩

/-- A read pair whose header barcode is exactly `AAAA` (C2 counterexample). -/
def readC2 : Read := ⟨"X:AAAA".data, "CCCC".data, "IIII".data⟩

/-- The dual-index worker for the single adapter `AAAA` at the default error
rate `0.1` (C2 counterexample): `floor(4 * 0.1) = 0`. -/
def workerC2 : WorkerParams := ⟨[['A', 'A', 'A', 'A']], 1/10, 1, 10, 2⟩

/-- A read whose header barcode is exactly the ten-base adapter (C2 witness). -/
def readC2w : Read := ⟨"X:AAAAAAAAAA".data, "CCCC".data, "IIII".data⟩

/-- The dual-index worker for the single ten-base adapter at the default error
rate `0.1` (C2 witness): `floor(10 * 0.1) = 1 ≥ 1`. -/
def workerC2w : WorkerParams := ⟨["AAAAAAAAAA".data], 1/10, 1, 10, 5⟩

/-- An alignment oracle that never reaches the match threshold (C3 witness). -/
def alignC3 : Align := fun _ _ => ⟨0, 0, 0⟩

/-- An inline worker (C3 witness). -/
def workerC3 : WorkerParams := ⟨[['A', 'A', 'A', 'A']], 1/5, 1, 10, 2⟩

/-- A concrete valid read pair member (C3 witness). -/
def readC3 : Read := ⟨"p".data, "CCCC".data, "IIII".data⟩

/-- The inline worker built with `error_rate = 0`, which the falsy-default
check silently replaces by `0.2` (C8 counterexample). -/
def workerC8 : WorkerParams := ⟨["ACGTACGTAC".data], 1/5, 1, 10, 5⟩

/-- A concrete read (C8 counterexample). -/
def readC8 : Read := ⟨"r".data, "ACGTACGTAGCC".data, "IIIIIIIIIIII".data⟩

/-- An alignment oracle reporting 9 matched bases and one mismatch
(`score = 9 * 1 - 10 = -1`) for every query (C8 counterexample). -/
def alignC8 : Align := fun _ _ => ⟨9, -1, 9⟩

/-- An alignment oracle under which R1 matches `AAAA` and R2 matches `GGGGGG`
(C10 witness). -/
def alignC10 : Align := fun a p =>
  if p = "AAAACGTCGT".data then
    (if a = "AAAA".data then ⟨4, 4, 3⟩ else ⟨0, 0, 0⟩)
  else
    (if a = "GGGGGG".data then ⟨6, 6, 5⟩ else ⟨0, 0, 0⟩)

/-- The inline worker with the two adapters `AAAA` and `GGGGGG` (C10 witness). -/
def workerC10 : WorkerParams := ⟨["AAAA".data, "GGGGGG".data], 1/5, 1, 10, 2⟩

/-- R1 starting with `AAAA` (C10 witness). -/
def r1C10 : Read := ⟨"p".data, "AAAACGTCGT".data, "IIIIIIIIII".data⟩

/-- R2 starting with `GGGGGG` (C10 witness). -/
def r2C10 : Read := ⟨"p".data, "GGGGGGCGTT".data, "IIIIIIIIII".data⟩

/-! # General lemmas about the embedding -/

/-! ## Levenshtein distance -/

/-- `lev [] ys` is the length of `ys` (all insertions). -/
theorem lev_nil_left (ys : List Char) : lev [] ys = ys.length := rfl

/-- `lev xs []` is the length of `xs` (all deletions). -/
theorem lev_nil_right (xs : List Char) : lev xs [] = xs.length := by
  cases xs <;> rfl

/-- The textbook Levenshtein recurrence. -/
theorem lev_cons_cons (x y : Char) (xs ys : List Char) :
    lev (x :: xs) (y :: ys) =
      min (lev xs ys + (if x = y then 0 else 1))
        (min (lev (x :: xs) ys + 1) (lev xs (y :: ys) + 1)) := rfl

/-- A string is at Levenshtein distance `0` from itself. -/
theorem lev_self (l : List Char) : lev l l = 0 := by
  induction l with
  | nil => rfl
  | cons x xs ih => rw [lev_cons_cons]; simp [ih]

/-- The embedding's `max_distance` is the mathematical floor of
`|adapter| * error_rate`. -/
theorem maxDistance_eq_floor (w : WorkerParams) (a : List Char) :
    maxDistance w a = ⌊(a.length : ℚ) * w.errorRate⌋ := by
  rw [maxDistance, Rat.floor_def, Rat.floor_def']

/-! ## Counter-map lemmas -/

theorem cGet_addCount_self (m : CMap) (k : String) (n : Nat) :
    cGet (addCount m k n) k = cGet m k + n := by
  induction m with
  | nil => simp [addCount, cGet]
  | cons p rest ih =>
      obtain ⟨k', v⟩ := p
      by_cases h : k' = k
      · simp [addCount, cGet, h]
      · simp [addCount, cGet, h, ih]

theorem cGet_addCount_ne (m : CMap) (k k₀ : String) (n : Nat) (h : k₀ ≠ k) :
    cGet (addCount m k₀ n) k = cGet m k := by
  induction m with
  | nil => simp [addCount, cGet, h]
  | cons p rest ih =>
      obtain ⟨k', v⟩ := p
      by_cases h' : k' = k₀
      · subst h'; simp [addCount, cGet, h]
      · simp [addCount, cGet, h', ih]

/-! ## String-key disjointness -/

/-- The head of a formatted adapter key `String.mk (a ++ tail)` is the head of
the barcode word `a`, which is none of `m`, `u`, `t`; hence the key differs
from the reserved counter keys. -/
theorem adapterKey_ne_reserved (a tail : List Char) (ha : a ≠ [])
    (hn : ∀ c ∈ a, c ∈ barcodeChars) :
    (⟨a ++ tail⟩ : String) ≠ "matched" ∧ (⟨a ++ tail⟩ : String) ≠ "unmatched" ∧
      (⟨a ++ tail⟩ : String) ≠ "total" := by
  obtain ⟨c, cs, rfl⟩ : ∃ c cs, a = c :: cs := by
    cases a with
    | nil => exact absurd rfl ha
    | cons c cs => exact ⟨c, cs, rfl⟩
  have hc : c ∈ barcodeChars := hn c (List.mem_cons_self c cs)
  refine ⟨?_, ?_, ?_⟩ <;>
    · intro he
      have hd := congrArg String.data he
      simp only [List.cons_append] at hd
      have hc' := List.head_eq_of_cons_eq hd
      subst hc'
      simp [barcodeChars] at hc

/-! ## Python split and barcode canonicalisation -/

theorem pySplitAux_of_not_mem (sep : Char) (l acc : List Char) (h : sep ∉ l) :
    pySplitAux sep l acc = [acc.reverse ++ l] := by
  induction l generalizing acc with
  | nil => simp [pySplitAux]
  | cons c rest ih =>
      have hc : ¬c = sep := by
        intro he
        exact h (he ▸ List.mem_cons_self c rest)
      have h' : sep ∉ rest := fun hm => h (List.mem_cons_of_mem _ hm)
      simp [pySplitAux, hc, ih _ h']

theorem pySplitAux_append_sep (sep : Char) (xs ys acc : List Char) (h : sep ∉ xs) :
    pySplitAux sep (xs ++ sep :: ys) acc =
      (acc.reverse ++ xs) :: pySplitAux sep ys [] := by
  induction xs generalizing acc with
  | nil => simp [pySplitAux]
  | cons x xs ih =>
      have hx : ¬x = sep := by
        intro he
        exact h (he ▸ List.mem_cons_self x xs)
      have h' : sep ∉ xs := fun hm => h (List.mem_cons_of_mem _ hm)
      simp [pySplitAux, hx, ih _ h']

/-- Splitting `i7 ++ "+" ++ i5` on `+` when neither part contains `+`. -/
theorem pySplit_pair (i7 i5 : List Char) (h7 : '+' ∉ i7) (h5 : '+' ∉ i5) :
    pySplit '+' (i7 ++ '+' :: i5) = [i7, i5] := by
  rw [pySplit, pySplitAux_append_sep _ _ _ _ h7, pySplitAux_of_not_mem _ _ _ h5]
  simp

/-- `convert_barcode` on an exact dual-index form: keep `i7`, reverse-complement
`i5`. -/
theorem convert_barcode_pair (i7 i5 : List Char) (h7 : '+' ∉ i7) (h5 : '+' ∉ i5) :
    convert_barcode (i7 ++ '+' :: i5) = i7 ++ '+' :: reverseComplements i5 := by
  rw [convert_barcode, pySplit_pair i7 i5 h7 h5]
  rfl

theorem complementBase_complementBase (c : Char) :
    complementBase (complementBase c) = c := by
  by_cases h1 : c = 'A'
  · subst h1; rfl
  by_cases h2 : c = 'T'
  · subst h2; rfl
  by_cases h3 : c = 'C'
  · subst h3; rfl
  by_cases h4 : c = 'G'
  · subst h4; rfl
  simp [complementBase, h1, h2, h3, h4]

/-- The reverse complement is an involution on every string. -/
theorem reverseComplements_reverseComplements (l : List Char) :
    reverseComplements (reverseComplements l) = l := by
  have hcc : (fun c => complementBase (complementBase c)) = fun c => c :=
    funext complementBase_complementBase
  simp [reverseComplements, List.map_reverse, List.reverse_reverse, List.map_map,
    Function.comp_def, hcc]

theorem complementBase_eq_plus {c : Char} (h : complementBase c = '+') : c = '+' := by
  by_cases h1 : c = 'A'
  · rw [h1] at h; exact absurd h (by decide)
  by_cases h2 : c = 'T'
  · rw [h2] at h; exact absurd h (by decide)
  by_cases h3 : c = 'C'
  · rw [h3] at h; exact absurd h (by decide)
  by_cases h4 : c = 'G'
  · rw [h4] at h; exact absurd h (by decide)
  rw [complementBase, if_neg h1, if_neg h2, if_neg h3, if_neg h4] at h
  exact h

theorem plus_notin_reverseComplements (l : List Char) (h : '+' ∉ l) :
    '+' ∉ reverseComplements l := by
  simp only [reverseComplements, List.mem_reverse, List.mem_map]
  rintro ⟨c, hc, he⟩
  exact h (complementBase_eq_plus he ▸ hc)

theorem plus_notin_of_nuc (l : List Char) (hn : ∀ c ∈ l, c ∈ nucChars) : '+' ∉ l :=
  fun hm => absurd (hn '+' hm) (by decide)

/-! ## Adapter-inference counting -/

theorem sumB_bumpB (m : BMap) (k : List Char) : sumB (bumpB m k) = sumB m + 1 := by
  induction m with
  | nil => simp [bumpB, sumB]
  | cons p rest ih =>
      obtain ⟨k', v⟩ := p
      by_cases h : k' = k
      · simp [bumpB, sumB, h]
        omega
      · simp [bumpB, sumB, h, ih]
        omega

/-- The counting loop processes `min |names| (3001 - counter)` further records
when entered with `counter ≤ 3000`. -/
theorem determineLoop_sum (names : List (List Char)) :
    ∀ (counter : Nat) (m : BMap), counter ≤ 3000 →
      sumB (determineLoop names counter m) =
        sumB m + min names.length (3001 - counter) := by
  induction names with
  | nil => intro counter m _; simp [determineLoop]
  | cons name rest ih =>
      intro counter m hc
      by_cases hstop : 3000 < counter + 1
      · have : counter = 3000 := by omega
        subst this
        rw [determineLoop, if_pos (by omega), sumB_bumpB]
        simp
      · rw [determineLoop, if_neg hstop, ih (counter + 1) _ (by omega), sumB_bumpB]
        simp [List.length_cons]
        omega

/-- Exactly `min |names| 3001` records contribute to the inferred barcode
counts. -/
theorem determineCounts_sum (names : List (List Char)) :
    sumB (determineCounts names) = min names.length 3001 := by
  rw [determineCounts, determineLoop_sum names 0 [] (by omega)]
  simp [sumB]

/-! ## Inline trimming characterization -/

/-- The adapter loop of `trim_adapters` is the first-accepted-adapter search:
it returns the first adapter satisfying the two acceptance conditions,
truncating the read at its alignment's `end_ref + 1`. -/
theorem trimLoop_eq_find (align : Align) (w : WorkerParams) (l : List (List Char))
    (read : Read) :
    trimLoop align w l read =
      match l.find? (acceptsAdapter align w (probe read)) with
      | none => (read, [])
      | some a =>
          ({ read with
              sequence := read.sequence.drop ((align a (probe read)).end_ref + 1)
              qualities := read.qualities.drop ((align a (probe read)).end_ref + 1) }, a) := by
  induction l with
  | nil => simp [trimLoop]
  | cons a rest ih =>
      by_cases h1 : (align a (probe read)).matchCount ≤ w.minMatchLength
      · have hacc : acceptsAdapter align w (probe read) a = false := by
          simp only [acceptsAdapter, decide_eq_false_iff_not]
          rintro ⟨h, -⟩
          omega
        rw [trimLoop, if_pos h1, List.find?_cons_of_neg _ (by simp [hacc]), ih]
      · by_cases h2 : withinError w a (align a (probe read))
        · have hacc : acceptsAdapter align w (probe read) a = true := by
            simp only [acceptsAdapter, decide_eq_true_eq]
            exact ⟨by omega, h2⟩
          rw [trimLoop, if_neg h1, if_pos h2, List.find?_cons_of_pos _ (by simp [hacc])]
        · have hacc : acceptsAdapter align w (probe read) a = false := by
            simp only [acceptsAdapter, decide_eq_false_iff_not]
            rintro ⟨-, h⟩
            exact h2 h
          rw [trimLoop, if_neg h1, if_neg h2,
            List.find?_cons_of_neg _ (by simp [hacc]), ih]

/-- The matched adapter returned by the loop is empty or one of the adapters
it searched. -/
theorem trimLoop_snd_mem (align : Align) (w : WorkerParams) (l : List (List Char))
    (read : Read) :
    (trimLoop align w l read).2 = [] ∨ (trimLoop align w l read).2 ∈ l := by
  induction l with
  | nil => simp [trimLoop]
  | cons a rest ih =>
      rw [trimLoop]
      by_cases h1 : (align a (probe read)).matchCount ≤ w.minMatchLength
      · rw [if_pos h1]
        rcases ih with h | h
        · exact .inl h
        · exact .inr (List.mem_cons_of_mem _ h)
      · rw [if_neg h1]
        by_cases h2 : withinError w a (align a (probe read))
        · rw [if_pos h2]
          exact .inr (List.mem_cons_self a rest)
        · rw [if_neg h2]
          rcases ih with h | h
          · exact .inl h
          · exact .inr (List.mem_cons_of_mem _ h)

/-! ## Counter flow -/

/-- Appending to a `String.mk` is appending the character lists. -/
theorem mk_append (l : List Char) (s : String) : (⟨l⟩ : String) ++ s = ⟨l ++ s.data⟩ := by
  cases s
  rfl

/-- The three reserved counter keys. -/
def reservedKeys : List String := ["matched", "unmatched", "total"]

/-- Bumping a key distinct from the reserved ones leaves them unchanged. -/
theorem cGet_reserved_addCount (m : CMap) (k : String) (n : Nat)
    (h : k ≠ "matched" ∧ k ≠ "unmatched" ∧ k ≠ "total") :
    cGet (addCount m k n) "matched" = cGet m "matched" ∧
    cGet (addCount m k n) "unmatched" = cGet m "unmatched" ∧
    cGet (addCount m k n) "total" = cGet m "total" :=
  ⟨cGet_addCount_ne m _ k n h.1, cGet_addCount_ne m _ k n h.2.1, cGet_addCount_ne m _ k n h.2.2⟩

/-- A formatted key `String.mk a ++ tailStr` built from a good adapter is not
reserved. -/
theorem adapterKey_string_ne_reserved (a : List Char) (tailStr : String)
    (h : goodAdapter a) :
    (String.mk a ++ tailStr) ≠ "matched" ∧ (String.mk a ++ tailStr) ≠ "unmatched" ∧
      (String.mk a ++ tailStr) ≠ "total" := by
  rw [mk_append]
  exact adapterKey_ne_reserved a tailStr.data h.1 h.2

/-- A bare adapter key `String.mk a` built from a good adapter is not
reserved. -/
theorem adapterBareKey_ne_reserved (a : List Char) (h : goodAdapter a) :
    (String.mk a) ≠ "matched" ∧ (String.mk a) ≠ "unmatched" ∧ (String.mk a) ≠ "total" := by
  have := adapterKey_ne_reserved a [] h.1 h.2
  simpa using this

/-- The longer adapter is one of the two. -/
theorem longerAdapter_eq_or (a1 a2 : List Char) :
    longerAdapter a1 a2 = a1 ∨ longerAdapter a1 a2 = a2 := by
  rw [longerAdapter]
  by_cases h : a2.length < a1.length
  · exact .inl (if_pos h)
  · exact .inr (if_neg h)

/-- Effect of the inline per-pair counter updates on the reserved keys:
exactly one of `matched` / `unmatched` is incremented, `total` is untouched. -/
theorem inlineCounts_reserved (c : CMap) (a1 a2 : List Char)
    (h1 : a1 = [] ∨ goodAdapter a1) (h2 : a2 = [] ∨ goodAdapter a2) :
    cGet (inlineCounts c a1 a2) "matched" + cGet (inlineCounts c a1 a2) "unmatched" =
      cGet c "matched" + cGet c "unmatched" + 1 ∧
    cGet (inlineCounts c a1 a2) "total" = cGet c "total" := by
  rw [inlineCounts]
  set c1 := if a1 ≠ [] then addCount c (String.mk a1 ++ "_1") 1 else c with hc1
  set c2 := if a2 ≠ [] then addCount c1 (String.mk a2 ++ "_2") 1 else c1 with hc2
  have p1 : cGet c1 "matched" = cGet c "matched" ∧ cGet c1 "unmatched" = cGet c "unmatched" ∧
      cGet c1 "total" = cGet c "total" := by
    rw [hc1]
    by_cases ha1 : a1 ≠ []
    · rw [if_pos ha1]
      exact cGet_reserved_addCount c _ 1
        (adapterKey_string_ne_reserved a1 "_1" (h1.resolve_left ha1))
    · rw [if_neg ha1]
      exact ⟨rfl, rfl, rfl⟩
  have p2 : cGet c2 "matched" = cGet c "matched" ∧ cGet c2 "unmatched" = cGet c "unmatched" ∧
      cGet c2 "total" = cGet c "total" := by
    rw [hc2]
    by_cases ha2 : a2 ≠ []
    · rw [if_pos ha2]
      have := cGet_reserved_addCount c1 _ 1
        (adapterKey_string_ne_reserved a2 "_2" (h2.resolve_left ha2))
      exact ⟨this.1.trans p1.1, this.2.1.trans p1.2.1, this.2.2.trans p1.2.2⟩
    · rw [if_neg ha2]
      exact p1
  by_cases hla : longerAdapter a1 a2 ≠ []
  · rw [if_pos hla]
    have hgood : goodAdapter (longerAdapter a1 a2) := by
      rcases longerAdapter_eq_or a1 a2 with he | he <;> rw [he] at hla ⊢
      · exact h1.resolve_left hla
      · exact h2.resolve_left hla
    have hk := adapterBareKey_ne_reserved _ hgood
    have q1 := cGet_reserved_addCount c2 (String.mk (longerAdapter a1 a2)) 1 hk
    constructor
    · rw [cGet_addCount_self, cGet_addCount_ne _ _ _ _ (by decide : ("matched" : String) ≠ "unmatched"),
        q1.1, q1.2.1, p2.1, p2.2.1]
      omega
    · rw [cGet_addCount_ne _ _ _ _ (by decide : ("matched" : String) ≠ "total"), q1.2.2, p2.2.2]
  · rw [if_neg hla]
    constructor
    · rw [cGet_addCount_self, cGet_addCount_ne _ _ _ _ (by decide : ("unmatched" : String) ≠ "matched"),
        p2.1, p2.2.1]
      omega
    · rw [cGet_addCount_ne _ _ _ _ (by decide : ("unmatched" : String) ≠ "total"), p2.2.2]

/-- Reserved-key effect of one successful inline `process_read_pair`. -/
theorem processInlinePair_ok_reserved (align : Align) (w : WorkerParams)
    (hgood : ∀ a ∈ w.adapters, goodAdapter a) (c : CMap) (r1 r2 : Read)
    (c' : CMap) (pr : PairResult)
    (h : processInlinePair align w c r1 r2 = .ok (c', pr)) :
    cGet c' "matched" + cGet c' "unmatched" = cGet c "matched" + cGet c "unmatched" + 1 ∧
    cGet c' "total" = cGet c "total" := by
  rw [processInlinePair] at h
  by_cases hv : pairValid r1 r2
  · rw [if_pos hv] at h
    have hc' : c' = inlineCounts c (trimLoop align w w.adapters r1).2
        (trimLoop align w w.adapters r2).2 := by
      have := congrArg (fun x => match x with | .ok p => p.1 | .error _ => c') h
      simpa using this.symm
    subst hc'
    refine inlineCounts_reserved c _ _ ?_ ?_
    · rcases trimLoop_snd_mem align w w.adapters r1 with he | hm
      · exact .inl he
      · exact .inr (hgood _ hm)
    · rcases trimLoop_snd_mem align w w.adapters r2 with he | hm
      · exact .inl he
      · exact .inr (hgood _ hm)
  · rw [if_neg hv] at h
    exact absurd h (by simp)

/-- Reserved-key effect of one successfully processed inline batch. -/
theorem processBatch_inline_reserved (align : Align) (w : WorkerParams)
    (hgood : ∀ a ∈ w.adapters, goodAdapter a) :
    ∀ (batch : List (Read × Read)) (c c' : CMap),
      processBatch (fun c pr => processInlinePair align w c pr.1 pr.2) c batch = .ok c' →
      cGet c' "matched" + cGet c' "unmatched" =
        cGet c "matched" + cGet c "unmatched" + batch.length ∧
      cGet c' "total" = cGet c "total" := by
  intro batch
  induction batch with
  | nil =>
      intro c c' h
      rw [processBatch] at h
      cases h
      simp
  | cons pr rest ih =>
      intro c c' h
      rw [processBatch] at h
      cases hstep : processInlinePair align w c pr.1 pr.2 with
      | error e => rw [hstep] at h; cases h
      | ok p =>
          rw [hstep] at h
          have h1 := processInlinePair_ok_reserved align w hgood c pr.1 pr.2 p.1 p.2 hstep
          have h2 := ih p.1 c' h
          refine ⟨?_, h2.2.trans h1.2⟩
          rw [h2.1, h1.1]
          simp [List.length_cons]
          omega

/-- Conservation through the inline worker loop: if `total = matched +
unmatched` holds on entry, it holds after every completed run. -/
theorem runWorker_inline_conservation (align : Align) (w : WorkerParams)
    (hgood : ∀ a ∈ w.adapters, goodAdapter a) :
    ∀ (batches : List (List (Read × Read))) (c c' : CMap),
      runWorker (fun c pr => processInlinePair align w c pr.1 pr.2) c batches = .ok c' →
      cGet c "total" = cGet c "matched" + cGet c "unmatched" →
      cGet c' "total" = cGet c' "matched" + cGet c' "unmatched" := by
  intro batches
  induction batches with
  | nil =>
      intro c c' h hin
      rw [runWorker] at h
      cases h
      exact hin
  | cons batch more ih =>
      intro c c' h hin
      rw [runWorker] at h
      cases hstep : processBatch (fun c pr => processInlinePair align w c pr.1 pr.2) c batch with
      | error e => rw [hstep] at h; cases h
      | ok c1 =>
          rw [hstep] at h
          have hb := processBatch_inline_reserved align w hgood batch c c1 hstep
          refine ih _ c' h ?_
          rw [cGet_addCount_self,
            cGet_addCount_ne _ _ _ _ (by decide : ("total" : String) ≠ "matched"),
            cGet_addCount_ne _ _ _ _ (by decide : ("total" : String) ≠ "unmatched"),
            hb.2, hb.1, hin]

/-- One dual-index pair whose (canonicalised) header barcode equals an adapter
with a positive error budget is counted as `matched`. -/
theorem processDualPair_matched (w : WorkerParams)
    (hgood : ∀ a ∈ w.adapters, goodAdapter a) (c : CMap) (r1 r2 : Read)
    (hv : pairValid r1 r2 = true)
    (hex : ∃ a ∈ w.adapters, canonicalHeaderBarcode r1 = a ∧ 1 ≤ maxDistance w a) :
    ∃ c' pr, processDualPair w c r1 r2 = .ok (c', pr) ∧
      cGet c' "matched" = cGet c "matched" + 1 ∧
      cGet c' "unmatched" = cGet c "unmatched" ∧
      cGet c' "total" = cGet c "total" := by
  have hsome : (match_adapters w (canonicalHeaderBarcode r1)).isSome := by
    rw [match_adapters, List.find?_isSome]
    obtain ⟨a, ha, he, hd⟩ := hex
    refine ⟨a, ha, ?_⟩
    rw [he]
    have h0 : lev a a = 0 := lev_self a
    simp only [h0, decide_eq_true_eq]
    omega
  obtain ⟨a', ha'⟩ := Option.isSome_iff_exists.mp hsome
  have hmem : a' ∈ w.adapters := by
    have h := ha'
    rw [match_adapters] at h
    exact List.mem_of_find?_eq_some h
  have hk := adapterBareKey_ne_reserved a' (hgood a' hmem)
  refine ⟨addCount (addCount c "matched" 1) (String.mk a') 1, ⟨String.mk a', r1, r2⟩, ?_, ?_, ?_, ?_⟩
  · simp only [processDualPair, hv, if_true, ha']
  · rw [cGet_addCount_ne _ _ _ _ hk.1, cGet_addCount_self]
  · rw [cGet_addCount_ne _ _ _ _ hk.2.1,
      cGet_addCount_ne _ _ _ _ (by decide : ("matched" : String) ≠ "unmatched")]
  · rw [cGet_addCount_ne _ _ _ _ hk.2.2,
      cGet_addCount_ne _ _ _ _ (by decide : ("matched" : String) ≠ "total")]

/-- A dual-index batch whose pairs all carry an exactly-matching adapter with
positive error budget completes and adds its length to `matched` only. -/
theorem processBatch_dual_matched (w : WorkerParams)
    (hgood : ∀ a ∈ w.adapters, goodAdapter a) :
    ∀ (batch : List (Read × Read)) (c : CMap),
      (∀ pr ∈ batch, pairValid pr.1 pr.2 = true ∧
        ∃ a ∈ w.adapters, canonicalHeaderBarcode pr.1 = a ∧ 1 ≤ maxDistance w a) →
      ∃ c', processBatch (fun c pr => processDualPair w c pr.1 pr.2) c batch = .ok c' ∧
        cGet c' "matched" = cGet c "matched" + batch.length ∧
        cGet c' "unmatched" = cGet c "unmatched" ∧
        cGet c' "total" = cGet c "total" := by
  intro batch
  induction batch with
  | nil =>
      intro c _
      exact ⟨c, rfl, by simp, rfl, rfl⟩
  | cons pr rest ih =>
      intro c hall
      obtain ⟨hv, hex⟩ := hall pr (List.mem_cons_self pr rest)
      obtain ⟨c1, pres, hstep, hm, hu, ht⟩ :=
        processDualPair_matched w hgood c pr.1 pr.2 hv hex
      obtain ⟨c', hrest, hm', hu', ht'⟩ :=
        ih c1 (fun q hq => hall q (List.mem_cons_of_mem _ hq))
      refine ⟨c', ?_, ?_, hu'.trans hu, ht'.trans ht⟩
      · rw [processBatch, hstep]
        exact hrest
      · rw [hm', hm]
        simp [List.length_cons]
        omega

/-- A dual-index run whose pairs all carry an exactly-matching adapter with
positive error budget completes with `matched` and `total` both increased by
the number of pairs and `unmatched` untouched. -/
theorem runWorker_dual_matched (w : WorkerParams)
    (hgood : ∀ a ∈ w.adapters, goodAdapter a) :
    ∀ (batches : List (List (Read × Read))) (c : CMap),
      (∀ batch ∈ batches, ∀ pr ∈ batch, pairValid pr.1 pr.2 = true ∧
        ∃ a ∈ w.adapters, canonicalHeaderBarcode pr.1 = a ∧ 1 ≤ maxDistance w a) →
      ∃ c', runWorker (fun c pr => processDualPair w c pr.1 pr.2) c batches = .ok c' ∧
        cGet c' "matched" = cGet c "matched" + (batches.map List.length).sum ∧
        cGet c' "unmatched" = cGet c "unmatched" ∧
        cGet c' "total" = cGet c "total" + (batches.map List.length).sum := by
  intro batches
  induction batches with
  | nil =>
      intro c _
      exact ⟨c, rfl, by simp, rfl, by simp⟩
  | cons batch more ih =>
      intro c hall
      obtain ⟨c1, hbatch, hm, hu, ht⟩ :=
        processBatch_dual_matched w hgood batch c
          (hall batch (List.mem_cons_self batch more))
      obtain ⟨c', hrun, hm', hu', ht'⟩ :=
        ih (addCount c1 "total" batch.length)
          (fun b hb => hall b (List.mem_cons_of_mem _ hb))
      refine ⟨c', ?_, ?_, ?_, ?_⟩
      · rw [runWorker, hbatch]
        exact hrun
      · rw [hm',
          cGet_addCount_ne _ _ _ _ (by decide : ("total" : String) ≠ "matched"), hm]
        simp
        omega
      · rw [hu',
          cGet_addCount_ne _ _ _ _ (by decide : ("total" : String) ≠ "unmatched"), hu]
      · rw [ht', cGet_addCount_self, ht]
        simp
        omega

/-- The `total` counter after a completed inline run is the sum of the batch
lengths: each batch adds exactly its length, per-pair processing never touches
`total`. -/
theorem runWorker_inline_total (align : Align) (w : WorkerParams)
    (hgood : ∀ a ∈ w.adapters, goodAdapter a) :
    ∀ (batches : List (List (Read × Read))) (c c' : CMap),
      runWorker (fun c pr => processInlinePair align w c pr.1 pr.2) c batches = .ok c' →
      cGet c' "total" = cGet c "total" + (batches.map List.length).sum := by
  intro batches
  induction batches with
  | nil =>
      intro c c' h
      rw [runWorker] at h
      cases h
      simp
  | cons batch more ih =>
      intro c c' h
      rw [runWorker] at h
      cases hstep : processBatch (fun c pr => processInlinePair align w c pr.1 pr.2) c batch with
      | error e => rw [hstep] at h; cases h
      | ok c1 =>
          rw [hstep] at h
          have hb := processBatch_inline_reserved align w hgood batch c c1 hstep
          have := ih _ c' h
          rw [this, cGet_addCount_self, hb.2]
          simp
          omega

/-! # The claims -/

/-- **C1** (confirmed).  Inline matching acceptance: for every alignment
oracle, every worker that `DemultiplexWorker.__init__` constructs successfully
from any adapter list, and every read, the adapter loop of `trim_adapters`
accepts an adapter against the read's probe (the first 20 bases of the
sequence, `probe`) iff the alignment's matched-base count strictly exceeds
`min_match_length` and the implied distance
`(score * matches - alignment_score) / penalty` is at most
`floor(|adapter| * error_rate)` (the predicate `acceptsAdapter`);
`min_match_length` is `round(min_k |adapter_k| / 2)`; adapters are tried in
insertion order and the first accepted adapter wins; on acceptance sequence
and quality are truncated on the left to `[end_ref + 1 :]` — all captured by
the spec-side restatement `trimSpecRead`, which the code's loop `trimLoop`
equals. -/
theorem C1_inline_acceptance (align : Align) (dflt : ℚ) (adapters : List (List Char))
    (rate : Option ℚ) (s p : ℤ) (w : WorkerParams)
    (hw : mkWorker dflt adapters rate s p = .ok w) (read : Read) :
    w.adapters = adapters ∧
    w.minMatchLength = pyRoundHalf (minAdapterLen adapters) ∧
    trimLoop align w w.adapters read = trimSpecRead align w read := by
  have hmain := trimLoop_eq_find align w w.adapters read
  cases adapters with
  | nil => exact absurd hw (by simp [mkWorker])
  | cons a rest =>
      rw [mkWorker] at hw
      by_cases hp : effectivePenalty p = 0
      · rw [if_pos hp] at hw
        cases hw
      · rw [if_neg hp] at hw
        cases hw
        exact ⟨rfl, rfl, hmain⟩

/-- Witness for C1: the characterization evaluated at a concrete worker
(adapter `AAAA`, defaults), oracle and read. -/
theorem C1_inline_acceptance_witness :
    workerW1.adapters = [['A', 'A', 'A', 'A']] ∧
    workerW1.minMatchLength = pyRoundHalf (minAdapterLen [['A', 'A', 'A', 'A']]) ∧
    trimLoop alignW1 workerW1 workerW1.adapters readW1 =
      trimSpecRead alignW1 workerW1 readW1 :=
  C1_inline_acceptance alignW1 (1/5) [['A', 'A', 'A', 'A']] none 1 10 workerW1 rfl readW1

/-- **C3** (confirmed).  Conservation invariant: after a completed inline run
(the worker consumed every batch and the poison, returning its counters), the
counter dict satisfies `total = matched + unmatched`, and `total` is the sum
of the batch lengths (it is incremented once per batch by the batch length;
`matched`/`unmatched` exactly once per pair — `processInlinePair_ok_reserved`).
The adapters are barcode words of the data model (`goodAdapter`), which keeps
the per-adapter dict keys distinct from the reserved ones. -/
theorem C3_conservation (align : Align) (w : WorkerParams)
    (hgood : ∀ a ∈ w.adapters, goodAdapter a)
    (batches : List (List (Read × Read))) (c : CMap)
    (h : runInline align w [] batches = .ok c) :
    cGet c "total" = cGet c "matched" + cGet c "unmatched" ∧
    cGet c "total" = (batches.map List.length).sum := by
  constructor
  · exact runWorker_inline_conservation align w hgood batches [] c h rfl
  · have := runWorker_inline_total align w hgood batches [] c h
    simpa [cGet] using this

/-- Witness for C3: a completed one-batch, one-pair run in which nothing
matches; the counters are `unmatched = 1`, `total = 1`. -/
theorem C3_conservation_witness :
    cGet [("unmatched", 1), ("total", 1)] "total" =
      cGet [("unmatched", 1), ("total", 1)] "matched" +
        cGet [("unmatched", 1), ("total", 1)] "unmatched" ∧
    cGet [("unmatched", 1), ("total", 1)] "total" =
      ([[(readC3, readC3)]].map List.length).sum :=
  C3_conservation alignC3 workerC3 (by decide) [[(readC3, readC3)]]
    [("unmatched", 1), ("total", 1)] (by decide)

/-- **C10** (confirmed, implicit).  Per-read trimming is independent of the
pair-level decision: when both reads matched and matched different adapters,
the emitted reads are each read's own trim result (its own adapter removed
from sequence and quality by `trimLoop`), even though the pair is bucketed
under the single longer adapter (`longerAdapter`, ties to R2's adapter). -/
theorem C10_per_read_trim_independent (align : Align) (w : WorkerParams) (c : CMap)
    (r1 r2 : Read) (hv : pairValid r1 r2 = true)
    (h1 : (trimLoop align w w.adapters r1).2 ≠ [])
    (h2 : (trimLoop align w w.adapters r2).2 ≠ [])
    (hne : (trimLoop align w w.adapters r1).2 ≠ (trimLoop align w w.adapters r2).2) :
    processInlinePair align w c r1 r2 =
      .ok (inlineCounts c (trimLoop align w w.adapters r1).2 (trimLoop align w w.adapters r2).2,
        ⟨String.mk (longerAdapter (trimLoop align w w.adapters r1).2
            (trimLoop align w w.adapters r2).2),
          (trimLoop align w w.adapters r1).1, (trimLoop align w w.adapters r2).1⟩) := by
  have hla : longerAdapter (trimLoop align w w.adapters r1).2
      (trimLoop align w w.adapters r2).2 ≠ [] := by
    rcases longerAdapter_eq_or (trimLoop align w w.adapters r1).2
        (trimLoop align w w.adapters r2).2 with he | he <;> rw [he]
    · exact h1
    · exact h2
  simp only [processInlinePair, hv, if_true, inlineBucket]
  rw [if_pos hla]

unseal Rat.mul Rat.inv Rat.sub Rat.add in
/-- Witness for C10: R1 matches `AAAA`, R2 matches the longer `GGGGGG`; the
pair is bucketed under `GGGGGG` while R1 is still emitted with `AAAA`
trimmed. -/
theorem C10_per_read_trim_independent_witness :
    pairValid r1C10 r2C10 = true ∧
    (trimLoop alignC10 workerC10 workerC10.adapters r1C10).2 = "AAAA".data ∧
    (trimLoop alignC10 workerC10 workerC10.adapters r2C10).2 = "GGGGGG".data ∧
    (trimLoop alignC10 workerC10 workerC10.adapters r1C10).1.sequence = "CGTCGT".data ∧
    processInlinePair alignC10 workerC10 [] r1C10 r2C10 =
      .ok (inlineCounts [] (trimLoop alignC10 workerC10 workerC10.adapters r1C10).2
            (trimLoop alignC10 workerC10 workerC10.adapters r2C10).2,
        ⟨String.mk (longerAdapter (trimLoop alignC10 workerC10 workerC10.adapters r1C10).2
            (trimLoop alignC10 workerC10 workerC10.adapters r2C10).2),
          (trimLoop alignC10 workerC10 workerC10.adapters r1C10).1,
          (trimLoop alignC10 workerC10 workerC10.adapters r2C10).1⟩) :=
  ⟨by decide, by decide, by decide, by decide,
    C10_per_read_trim_independent alignC10 workerC10 [] r1C10 r2C10
      (by decide) (by decide) (by decide) (by decide)⟩

unseal Rat.mul Rat.inv Rat.sub Rat.add in
/-- **C2** counterexample.  The claim fails as stated: with the adapter list
`[AAAA]` at the default dual-index error rate `0.1`, a pair whose header
barcode is exactly `AAAA` is *rejected*, because the accept test
`edit(q, a) < floor(|a| * error_rate)` is strict and `floor(4 * 0.1) = 0`;
the run ends with `matched = 0 ≠ 1 = total` and `unmatched = 1 ≠ 0`. -/
theorem C2_dual_roundtrip_counterexample :
    mkWorker (1/10) [['A', 'A', 'A', 'A']] none 1 10 = .ok workerC2 ∧
    canonicalHeaderBarcode readC2 = ['A', 'A', 'A', 'A'] ∧
    pairValid readC2 readC2 = true ∧
    runDual workerC2 [] [[(readC2, readC2)]] = .ok [("unmatched", 1), ("total", 1)] ∧
    ¬ dualRoundTripOutcome (runDual workerC2 [] [[(readC2, readC2)]]) := by
  refine ⟨rfl, by decide, by decide, by decide, ?_⟩
  intro h
  rw [show runDual workerC2 [] [[(readC2, readC2)]] =
      .ok [("unmatched", 1), ("total", 1)] from by decide] at h
  exact absurd h.2 (by decide)

/-- **C2** (corrected).  Amended claim: for every dual-index worker whose
adapters are barcode words, and every input in which each read pair is valid
and its header barcode — after canonicalisation — is exactly equal to some
adapter `a` with `floor(|a| * error_rate) ≥ 1` (true in particular for
17-character dual-index adapters at the default error rate 0.1), the run ends
with `matched = total` and `unmatched = 0`.  (The pair is assigned to the
first adapter within threshold, not necessarily the one it equals; and the
extra budget hypothesis is forced by the strict `<` in `match_adapters`, see
the counterexample.) -/
theorem C2_dual_roundtrip_amended (dflt : ℚ) (adapters : List (List Char))
    (rate : Option ℚ) (s p : ℤ) (w : WorkerParams)
    (hw : mkWorker dflt adapters rate s p = .ok w)
    (hgood : ∀ a ∈ w.adapters, goodAdapter a)
    (batches : List (List (Read × Read)))
    (hall : ∀ batch ∈ batches, ∀ pr ∈ batch, pairValid pr.1 pr.2 = true ∧
      ∃ a ∈ w.adapters, canonicalHeaderBarcode pr.1 = a ∧ 1 ≤ maxDistance w a) :
    dualRoundTripOutcome (runDual w [] batches) := by
  obtain ⟨c, hrun, hm, hu, ht⟩ := runWorker_dual_matched w hgood batches [] hall
  rw [runDual, hrun]
  simp only [cGet] at hm hu ht
  exact ⟨by omega, by omega⟩

unseal Rat.mul Rat.inv Rat.sub Rat.add in
/-- Witness for the amended C2: one pair whose header barcode equals the
ten-base adapter (`floor(10 * 0.1) = 1`); the completed run has
`matched = total` and `unmatched = 0`. -/
theorem C2_dual_roundtrip_amended_witness :
    dualRoundTripOutcome (runDual workerC2w [] [[(readC2w, readC2w)]]) :=
  C2_dual_roundtrip_amended (1/10) ["AAAAAAAAAA".data] none 1 10 workerC2w rfl
    (by decide) [[(readC2w, readC2w)]] (by decide)

/-- **C4** (code bug).  The claim (and §4.2 of the spec) says a missing or
empty prefix silently discards the pair with `open` succeeding.  The code's
`open` (lines 74–83) lacks a `continue` after `self[barcode] = None`, so that
assignment is dead and execution falls through: a `None` prefix (the default
`NO_MATCH` sink) reaches `paired_end_filenames(None)` and raises `TypeError`,
and an empty-string prefix opens the real files `".R1.fastq.gz"` /
`".R2.fastq.gz"` and assigns that handle to the barcode, so `write` forwards
pairs to them instead of discarding.  The `if not fp: return` guard in `write`
and the dead `None` assignment show the spec is the intent and the missing
`continue` a slip. -/
theorem C4_writer_discard_bug :
    writerOpen [("NO_MATCH", none)] = .error .typeError ∧
    writerOpen [("AAAA", some "")] = .ok ⟨[("", "")], [("AAAA", some "")]⟩ ∧
    writerHandle ⟨[("", "")], [("AAAA", some "")]⟩ "AAAA" = some "" ∧
    writerHandle ⟨[("", "")], [("AAAA", some "")]⟩ "AAAA" ≠ none := by decide

/-- **C5** counterexample.  The claim fails as stated: with an empty counter
dict, `save_statistics` does raise (`total` missing), but the CSV file has
already been created and the column-header row written — the file on disk is
not absent. -/
theorem C5_save_statistics_counterexample :
    (save_statistics [] ["AAAA"] "" "").2 = .missingTotal ∧
    (save_statistics [] ["AAAA"] "" "").1 = [.headerRow ""] ∧
    (save_statistics [] ["AAAA"] "" "").1 ≠ ([] : List StatsRow) := by decide

/-- **C5** (corrected).  Amended claim: if `total` is absent the operation
fails with `KeyError` (`MissingCounter`); if `total` is present and zero it
returns `None` ("no output") — and an absent `unmatched` only raises when
`total` is present and nonzero, because the `total == 0` early return runs
first.  In every one of these cases the CSV file *is* produced on disk,
containing exactly the header row. -/
theorem C5_save_statistics_amended (counts : CMap) (adapters : List String)
    (sample tag : String) :
    (cMem counts "total" = false →
      save_statistics counts adapters sample tag = ([.headerRow tag], .missingTotal)) ∧
    (cMem counts "total" = true → cGet counts "total" = 0 →
      save_statistics counts adapters sample tag = ([.headerRow tag], .noOutput)) ∧
    (cMem counts "total" = true → cGet counts "total" ≠ 0 →
      cMem counts "unmatched" = false →
      save_statistics counts adapters sample tag = ([.headerRow tag], .missingUnmatched)) := by
  refine ⟨fun h => ?_, fun h1 h2 => ?_, fun h1 h2 h3 => ?_⟩
  · simp [save_statistics, h]
  · simp [save_statistics, h1, h2]
  · simp [save_statistics, h1, h2, h3]

/-- Witness for the amended C5 at three concrete counter dicts. -/
theorem C5_save_statistics_amended_witness :
    save_statistics [] [] "" "" = ([.headerRow ""], .missingTotal) ∧
    save_statistics [("total", 0)] [] "s" "t" = ([.headerRow "t"], .noOutput) ∧
    save_statistics [("total", 3)] [] "s" "t" = ([.headerRow "t"], .missingUnmatched) :=
  ⟨(C5_save_statistics_amended [] [] "" "").1 (by decide),
    (C5_save_statistics_amended [("total", 0)] [] "s" "t").2.1 (by decide) (by decide),
    (C5_save_statistics_amended [("total", 3)] [] "s" "t").2.2 (by decide) (by decide)
      (by decide)⟩

/-- **C6** counterexample.  The claim fails as stated: canonicalisation is an
involution, not idempotent — on `AAAAAAAA+CCCCCCCC` a second application
undoes the first (`revcomp(revcomp(CCCCCCCC)) = CCCCCCCC ≠ GGGGGGGG`). -/
theorem C6_canonicalisation_counterexample :
    convert_barcode "AAAAAAAA+CCCCCCCC".data = "AAAAAAAA+GGGGGGGG".data ∧
    convert_barcode (convert_barcode "AAAAAAAA+CCCCCCCC".data) =
      "AAAAAAAA+CCCCCCCC".data ∧
    convert_barcode (convert_barcode "AAAAAAAA+CCCCCCCC".data) ≠
      convert_barcode "AAAAAAAA+CCCCCCCC".data := by decide

/-- **C6** (corrected).  Amended claim: for every dual-index barcode of the
exact form `i7 + "+" + i5` (`|i7| = |i5| = 8` over `ACGTN`), `convert_barcode`
is an *involution*: `canonicalise(canonicalise(b)) = b`.  (Idempotence holds
only when `i5` is its own reverse complement, see the counterexample.) -/
theorem C6_canonicalisation_involution (i7 i5 : List Char)
    (h7len : i7.length = 8) (h5len : i5.length = 8)
    (h7 : ∀ c ∈ i7, c ∈ nucChars) (h5 : ∀ c ∈ i5, c ∈ nucChars) :
    convert_barcode (convert_barcode (i7 ++ '+' :: i5)) = i7 ++ '+' :: i5 := by
  have p7 := plus_notin_of_nuc i7 h7
  have p5 := plus_notin_of_nuc i5 h5
  rw [convert_barcode_pair i7 i5 p7 p5,
    convert_barcode_pair i7 _ p7 (plus_notin_reverseComplements i5 p5),
    reverseComplements_reverseComplements]

/-- Witness for the amended C6 at `AAAAAAAA+CCCCCCCC`. -/
theorem C6_canonicalisation_involution_witness :
    convert_barcode (convert_barcode ("AAAAAAAA".data ++ '+' :: "CCCCCCCC".data)) =
      "AAAAAAAA".data ++ '+' :: "CCCCCCCC".data :=
  C6_canonicalisation_involution "AAAAAAAA".data "CCCCCCCC".data
    (by decide) (by decide) (by decide) (by decide)

/-- **C7** counterexample.  The claim fails as stated: a *negative* penalty
does not raise — `str(-5).isdigit()` is false, so the penalty is silently
replaced by the default `10` and construction succeeds. -/
theorem C7_penalty_counterexample :
    ((-5 : ℤ) < 1) ∧
    mkWorker (1/5) [['A', 'A', 'A', 'A']] none 1 (-5) =
      .ok ⟨[['A', 'A', 'A', 'A']], 1/5, 1, 10, 2⟩ := by
  exact ⟨by decide, rfl⟩

/-- **C7** (corrected).  Amended claim: penalty `0` fails with `ValueError` at
construction; a negative penalty is silently replaced by the default `10`
(construction succeeds); and construction never completes with an effective
penalty below `1`. -/
theorem C7_penalty_validation (dflt : ℚ) (adapters : List (List Char))
    (rate : Option ℚ) (s p : ℤ) (ha : adapters ≠ []) :
    (p = 0 → mkWorker dflt adapters rate s p = .error .zeroPenalty) ∧
    (p < 0 → mkWorker dflt adapters rate s p =
      .ok { adapters := adapters, errorRate := effectiveErrorRate dflt rate,
            score := effectiveScore s, penalty := 10,
            minMatchLength := pyRoundHalf (minAdapterLen adapters) }) ∧
    (∀ w, mkWorker dflt adapters rate s p = .ok w → 1 ≤ w.penalty) := by
  cases adapters with
  | nil => exact absurd rfl ha
  | cons a rest =>
      refine ⟨fun hp => ?_, fun hp => ?_, fun w hw => ?_⟩
      · subst hp
        rw [mkWorker, if_pos (show effectivePenalty 0 = 0 from by decide)]
      · have h10 : effectivePenalty p = 10 := by
          rw [effectivePenalty, if_neg (by omega)]
        rw [mkWorker, if_neg (by omega), h10]
      · rw [mkWorker] at hw
        by_cases hp0 : effectivePenalty p = 0
        · rw [if_pos hp0] at hw
          cases hw
        · rw [if_neg hp0] at hw
          cases hw
          show 1 ≤ effectivePenalty p
          omega

/-- Witness for the amended C7: constructing with penalty `-5` succeeds with
the default `10` in effect. -/
theorem C7_penalty_validation_witness :
    mkWorker (1/5) [['A', 'A', 'A', 'A']] none 1 (-5) =
      .ok { adapters := [['A', 'A', 'A', 'A']],
            errorRate := effectiveErrorRate (1/5) none,
            score := effectiveScore 1, penalty := 10,
            minMatchLength := pyRoundHalf (minAdapterLen [['A', 'A', 'A', 'A']]) } :=
  (C7_penalty_validation (1/5) [['A', 'A', 'A', 'A']] none 1 (-5) (by decide)).2.1
    (by decide)

unseal Rat.mul Rat.inv Rat.sub Rat.add in
/-- **C8** counterexample.  The claim fails as stated: `error_rate = 0` is
falsy, so `__init__` replaces it by the class default (`0.2` inline); for the
ten-base adapter `max_distance = floor(10 * 0.2) = 2 ≠ 0`, and an alignment
with implied distance `1` (one mismatch, not exact) is accepted and trimmed. -/
theorem C8_error_rate_zero_counterexample :
    mkWorker (1/5) ["ACGTACGTAC".data] (some 0) 1 10 = .ok workerC8 ∧
    workerC8.errorRate = 1/5 ∧
    maxDistance workerC8 "ACGTACGTAC".data = 2 ∧
    impliedDistance workerC8 ⟨9, -1, 9⟩ = 1 ∧
    (trimLoop alignC8 workerC8 workerC8.adapters readC8).2 = "ACGTACGTAC".data ∧
    (trimLoop alignC8 workerC8 workerC8.adapters readC8).1.sequence = "CC".data := by
  refine ⟨rfl, rfl, by decide, by decide, by decide, by decide⟩

/-- **C8** (corrected).  Amended claim: constructing a worker with
`error_rate = 0` yields the class default (`0.2` / `0.1`) because `0` is
falsy; exact-match-only behaviour instead characterises the adapters whose
`max_distance = floor(|a| * error_rate)` is `0`: for them inline acceptance
forces implied distance `≤ 0` and dual-index matching accepts no barcode at
all (hence none at nonzero edit distance). -/
theorem C8_error_rate_zero_amended (dflt : ℚ) (adapters : List (List Char))
    (s p : ℤ) (w : WorkerParams)
    (hw : mkWorker dflt adapters (some 0) s p = .ok w) :
    w.errorRate = dflt ∧
    (∀ a r, maxDistance w a = 0 → enoughMatches w r → withinError w a r →
      impliedDistance w r ≤ 0) ∧
    (∀ a q, maxDistance w a = 0 → ¬ ((lev q a : ℤ) < maxDistance w a)) := by
  refine ⟨?_, ?_, ?_⟩
  · cases adapters with
    | nil => exact absurd hw (by simp [mkWorker])
    | cons a rest =>
        rw [mkWorker] at hw
        by_cases hp : effectivePenalty p = 0
        · rw [if_pos hp] at hw
          cases hw
        · rw [if_neg hp] at hw
          cases hw
          show effectiveErrorRate dflt (some 0) = dflt
          rw [effectiveErrorRate]
          simp
  · intro a r h0 _ hwe
    have h : impliedDistance w r ≤ ((maxDistance w a : ℤ) : ℚ) := hwe
    rw [h0] at h
    simpa using h
  · intro a q h0
    rw [h0]
    have hnn : (0 : ℤ) ≤ (lev q a : ℤ) := Int.ofNat_nonneg _
    omega

/-- Witness for the amended C8: the worker constructed with `error_rate = 0`
carries the default `0.2`. -/
theorem C8_error_rate_zero_amended_witness :
    workerC8.errorRate = 1/5 :=
  (C8_error_rate_zero_amended (1/5) ["ACGTACGTAC".data] 1 10 workerC8 rfl).1

/-- **C9** counterexample.  The claim fails as stated: with 3,002 input
headers, 3,001 records contribute to the barcode counts — the `counter > 3000`
check runs only *after* the record has been counted, so the 3,001st record is
included. -/
theorem C9_inference_bound_counterexample :
    sumB (determineCounts (List.replicate 3002 ['A'])) = 3001 ∧
    ¬ sumB (determineCounts (List.replicate 3002 ['A'])) ≤ 3000 := by
  have h := determineCounts_sum (List.replicate 3002 ['A'])
  rw [List.length_replicate] at h
  constructor
  · rw [h]
    decide
  · rw [h]
    decide

/-- **C9** (corrected).  Amended claim: adapters are inferred by reading up to
the first 3,001 headers of the first R1 file — exactly
`min |input| 3001` records contribute to the barcode counts from which the
major barcodes are selected, so no more than 3,001 (not 3,000) contribute. -/
theorem C9_inference_bound_amended (names : List (List Char)) :
    sumB (determineCounts names) = min names.length 3001 ∧
    sumB (determineCounts names) ≤ 3001 := by
  have h := determineCounts_sum names
  exact ⟨h, by rw [h]; omega⟩

end Cancer
